import Mathlib

/-!
Verification of the WiserPin synchronization subsystem.

This file gives a shallow embedding of the parts of the WiserPin repository
that the specification's claims concern:

* the extension's local storage operations
  (`packages/storage/src/operations/collections.ts`, `.../pins.ts`),
* the extension's sync service (`apps/extension` sync-service),
* the extension's API client unwrapping (`api-client` `request`),
* the backend services (`CollectionsService.create`, `PinsService.create`,
  `PinsService.findAll`).

Conventions for translating the TypeScript/JavaScript source:

* `string | undefined` / optional fields become `Option String`;
  JavaScript `null` stored in a field also becomes `none`.
* JavaScript truthiness on strings (`x || d`, `if (x)`) is modelled by
  the `jsOr*` / `jsTruthy*` helpers below: the empty string is falsy.
* asynchronous functions become pure state-passing functions; a thrown
  JavaScript `Error` becomes `Except.error msg` carrying the message.
* `Date.now()` / `new Date().toISOString()` become the `nowMs` / `nowIso`
  fields of the state, fixed for the duration of one call.
* the random/time-based id generators `col_${Date.now()}_${rand}` and
  `pin_${Date.now()}_${rand}` are modelled by a fresh-id counter in the
  local store: the n-th generated id is `col_<n>` / `pin_<n>`.  All that
  the proofs use is that the generator output is chosen by the store,
  not by the caller.
* network calls made by the sync service are recorded in an `ApiCall`
  trace; the remote store is part of the state and evolves by the
  backend's create-with-supplied-id semantics.
-/

/-- JS `x || d` for an optional string `x`: `undefined`/`null` and the
empty string are falsy. -/
def jsOr (x : Option String) (d : String) : String :=
  match x with
  | some s => if s = "" then d else s
  | none => d

/-- JS `x || y` where both sides are optional strings. -/
def jsOrOO (x y : Option String) : Option String :=
  match x with
  | some s => if s = "" then y else some s
  | none => y

/-- JS truthiness of an optional string. -/
def jsTruthyO (x : Option String) : Bool :=
  match x with
  | some s => s ≠ ""
  | none => false

/-- JS `x || undefined` for an optional string. -/
def jsOrUndef (x : Option String) : Option String :=
  match x with
  | some s => if s = "" then none else some s
  | none => none

/-- JS `String.includes`: `pat` occurs contiguously in `s`. -/
def containsSubstr (s pat : String) : Bool :=
  (List.range (s.length + 1)).any
    (fun i => (s.toList.drop i).take pat.length == pat.toList)

/-! ## Extension-side data model (`@wiserpin/core` types) -/

/-- Embeds `PagePreview` of `packages/core/src/types/page.ts`. -/
structure PagePreview where
  url : String
  title : Option String
  ogImageUrl : Option String
  siteName : Option String
deriving Repr, DecidableEq

/-- Embeds `Summary` of `packages/core/src/types/page.ts`. -/
structure Summary where
  text : String
  createdAt : String
deriving Repr, DecidableEq

/-- Embeds `Pin` of `packages/core/src/types/pin.ts`. -/
structure Pin where
  id : String
  userId : Option String
  collectionId : String
  page : PagePreview
  summary : Option Summary
  note : Option String
  createdAt : String
deriving Repr, DecidableEq

/-- Embeds `Collection` of `packages/core/src/types/collection.ts`. -/
structure Collection where
  id : String
  userId : Option String
  name : String
  color : Option String
  goal : String
  createdAt : String
  updatedAt : String
deriving Repr, DecidableEq

/-! ## Local store (`packages/storage/src/operations`) -/

/-- The on-device IndexedDB contents, together with the modelled fresh-id
counter and the wall-clock reading used for `new Date().toISOString()`. -/
structure LocalStore where
  collections : List Collection
  pins : List Pin
  nextId : Nat
  nowIso : String
deriving Repr, DecidableEq

/-- Embeds `generateId` of `operations/collections.ts`
(`col_${Date.now()}_${random}`), modelled by the store counter. -/
def generateColId (n : Nat) : String := "col_" ++ toString n

/-- Embeds `generateId` of `operations/pins.ts`
(`pin_${Date.now()}_${random}`), modelled by the store counter. -/
def generatePinId (n : Nat) : String := "pin_" ++ toString n

/-- Embeds `addCollection` of `operations/collections.ts`: spreads the input and
then overwrites `id`, `createdAt` and `updatedAt`
(`{...input, id: generateId(), createdAt: now, updatedAt: now}`),
so a caller-supplied id is discarded.  Returns the stored id. -/
def addCollection (input : Collection) (st : LocalStore) : String × LocalStore :=
  let id := generateColId st.nextId
  let c : Collection :=
    { input with id := id, createdAt := st.nowIso, updatedAt := st.nowIso }
  (id, { st with collections := st.collections ++ [c], nextId := st.nextId + 1 })

/-- Embeds `checkPinExists` of `operations/pins.ts`: url-index lookup. -/
def checkPinExists (url : String) (st : LocalStore) : Bool :=
  st.pins.any (fun p => p.page.url == url)

/-- Embeds `addPin` of `operations/pins.ts`: throws `DuplicateError` when a pin
with the same url exists, otherwise spreads the input and overwrites
`id` and `createdAt` (`{...input, id: generateId(), createdAt: now}`),
so a caller-supplied id is discarded.  Returns the stored id. -/
def addPin (input : Pin) (st : LocalStore) : Except String (String × LocalStore) :=
  if checkPinExists input.page.url st then
    .error ("Pin with url " ++ input.page.url ++ " already exists")
  else
    let id := generatePinId st.nextId
    let p : Pin := { input with id := id, createdAt := st.nowIso }
    .ok (id, { st with pins := st.pins ++ [p], nextId := st.nextId + 1 })

/-! ## Remote record shapes as the extension API client sees them -/

/-- A collection as returned by `GET /collections`. -/
structure RemoteCollection where
  id : String
  name : String
  description : Option String
  color : Option String
  createdAt : Option String
deriving Repr, DecidableEq

/-- A pin as returned by `GET /pins` (after the client unwraps `data`). -/
structure RemotePin where
  id : String
  url : String
  title : String
  description : Option String
  imageUrl : Option String
  collectionId : Option String
  createdAt : Option String
deriving Repr, DecidableEq

/-- The body sent by `api.collections.create` during push. -/
structure ApiCollectionPayload where
  id : String
  name : String
  description : String
  color : Option String
deriving Repr, DecidableEq

/-- The body sent by `api.pins.create` during push. -/
structure ApiPinPayload where
  id : String
  url : String
  title : String
  description : Option String
  imageUrl : Option String
  tags : List String
  collectionId : String
deriving Repr, DecidableEq

/-- One Remote Client operation, recorded in the order it is issued. -/
inductive ApiCall where
  | listPins : ApiCall
  | listCollections : ApiCall
  | createCollection : ApiCollectionPayload → ApiCall
  | createPin : ApiPinPayload → ApiCall
deriving Repr, DecidableEq

/-- The create calls of a trace. -/
def createCalls (trace : List ApiCall) : List ApiCall :=
  trace.filter (fun c =>
    match c with
    | .createCollection _ => true
    | .createPin _ => true
    | _ => false)

/-! ## Sync service state (`SyncStatus`, `SyncSettings`, service fields) -/

/-- Embeds `SyncStatus` of the sync service. -/
structure SyncStatus where
  isSyncing : Bool
  lastSyncTime : Option Nat
  error : Option String
  pendingChanges : Nat
deriving Repr, DecidableEq

/-- Embeds `SyncSettings` of the sync service. -/
structure SyncSettings where
  enabled : Bool
  autoSync : Bool
  syncInterval : Nat
  wifiOnly : Bool
deriving Repr, DecidableEq

/-- A `Partial<SyncStatus>` (outer `none` = field absent from the patch;
an inner `none` is an explicit JS `null`, which does overwrite). -/
structure StatusPatch where
  isSyncing : Option Bool
  lastSyncTime : Option (Option Nat)
  error : Option (Option String)
  pendingChanges : Option Nat
deriving Repr, DecidableEq

/-- JS `{...current, ...patch}` for the status. -/
def applyStatusPatch (st : SyncStatus) (p : StatusPatch) : SyncStatus :=
  { isSyncing := p.isSyncing.getD st.isSyncing
    lastSyncTime := p.lastSyncTime.getD st.lastSyncTime
    error := p.error.getD st.error
    pendingChanges := p.pendingChanges.getD st.pendingChanges }

/-- A `Partial<SyncSettings>`. -/
structure SettingsPatch where
  enabled : Option Bool
  autoSync : Option Bool
  syncInterval : Option Nat
  wifiOnly : Option Bool
deriving Repr, DecidableEq

/-- JS `{...current, ...patch}` for the settings. -/
def applySettingsPatch (st : SyncSettings) (p : SettingsPatch) : SyncSettings :=
  { enabled := p.enabled.getD st.enabled
    autoSync := p.autoSync.getD st.autoSync
    syncInterval := p.syncInterval.getD st.syncInterval
    wifiOnly := p.wifiOnly.getD st.wifiOnly }

/-- The whole world one `sync()` call can observe and modify:
persisted settings and status, the in-memory `syncInProgress` flag and
auto-sync timer handle, connectivity, the cached Clerk token, the local
IndexedDB store, the remote records visible through the API, a flag that
makes every API request fail with a given message (modelling a 401 or a
transport failure uniformly), and the wall clock. -/
structure SyncState where
  settings : SyncSettings
  status : SyncStatus
  syncInProgress : Bool
  syncTimer : Option Nat
  online : Bool
  token : Option String
  store : LocalStore
  remoteCollections : List RemoteCollection
  remotePins : List RemotePin
  apiFail : Option String
  nowMs : Nat
deriving Repr, DecidableEq

/-- Embeds `updateStatus` of the sync service: merge the patch into the persisted
status (the `SYNC_STATUS_CHANGED` broadcast is fire-and-forget and has no
effect on the state). -/
def updateStatus (s : SyncState) (p : StatusPatch) : SyncState :=
  { s with status := applyStatusPatch s.status p }

/-- Embeds `stopAutoSync`: clear the interval timer. -/
def stopAutoSync (s : SyncState) : SyncState :=
  { s with syncTimer := none }

/-- Embeds `startAutoSync`: stop any timer, then re-arm it when
`enabled && autoSync`; the stored handle is opaque. -/
def startAutoSync (s : SyncState) : SyncState :=
  let s := stopAutoSync s
  if s.settings.enabled && s.settings.autoSync then
    { s with syncTimer := some (s.settings.syncInterval * 60 * 1000) }
  else s

/-- Embeds `updateSettings` of the sync service: merge and persist the patch,
then re-arm or tear down the auto-sync timer. -/
def updateSettings (s : SyncState) (p : SettingsPatch) : SyncState :=
  let u := applySettingsPatch s.settings p
  let s := { s with settings := u }
  if u.enabled && u.autoSync then startAutoSync s else stopAutoSync s

/-! ## Pull phase (`SyncService.pullChanges`) -/

/-- The collection loop of `pullChanges`: for each remote collection whose
id is not in the precomputed local id set, build the local shape
(`description → goal`, default color, remote `createdAt` kept in the
input) and hand it to `addCollection`. -/
def pullCollectionsLoop (localIds : List String) :
    List RemoteCollection → LocalStore → LocalStore
  | [], st => st
  | rc :: rest, st =>
    if localIds.contains rc.id then
      pullCollectionsLoop localIds rest st
    else
      let input : Collection :=
        { id := rc.id
          userId := none
          name := rc.name
          goal := jsOr rc.description ""
          color := some (jsOr rc.color "#6366f1")
          createdAt := jsOr rc.createdAt st.nowIso
          -- the object literal in `pullChanges` has no `updatedAt`;
          -- `addCollection` overwrites it in any case
          updatedAt := "" }
      let (_, st) := addCollection input st
      pullCollectionsLoop localIds rest st

/-- The pin loop of `pullChanges`: for each remote pin whose id is not in
the precomputed local id set, build the local shape and hand it to
`addPin`.  A `DuplicateError` thrown by `addPin` is not caught and
aborts the remaining iterations, keeping the records already written. -/
def pullPinsLoop (localIds : List String) :
    List RemotePin → LocalStore → Except String Unit × LocalStore
  | [], st => (.ok (), st)
  | rp :: rest, st =>
    if localIds.contains rp.id then
      pullPinsLoop localIds rest st
    else
      let input : Pin :=
        { id := rp.id
          userId := none
          collectionId := jsOr rp.collectionId ""
          page :=
            { url := rp.url
              title := some rp.title
              ogImageUrl := rp.imageUrl
              siteName := none }
          summary :=
            match rp.description with
            | some d =>
              if d = "" then none
              else some { text := d, createdAt := jsOr rp.createdAt st.nowIso }
            | none => none
          note := some (jsOr rp.description "")
          createdAt := jsOr rp.createdAt st.nowIso }
      match addPin input st with
      | .error e => (.error e, st)
      | .ok (_, st) => pullPinsLoop localIds rest st

/-- Embeds `SyncService.pullChanges`: list both remote record kinds, read the
local sets, then insert the remote-only collections and the remote-only
pins.  When the API is failing, the two list calls were issued and the
thrown error propagates. -/
def SyncService.pullChanges (s : SyncState) :
    Except String Unit × SyncState × List ApiCall :=
  let trace := [ApiCall.listPins, ApiCall.listCollections]
  match s.apiFail with
  | some msg => (.error msg, s, trace)
  | none =>
    let localCollectionIds := s.store.collections.map (fun c => c.id)
    let localPinIds := s.store.pins.map (fun p => p.id)
    let st := pullCollectionsLoop localCollectionIds s.remoteCollections s.store
    let (res, st) := pullPinsLoop localPinIds s.remotePins st
    (res, { s with store := st }, trace)

/-! ## Push phase (`SyncService.pushChanges`) -/

/-- Server effect of `POST /collections` with a supplied id, as seen
through the client: create-if-absent (`CollectionsService.create`,
supplied-id path). -/
def remoteCreateCollection (p : ApiCollectionPayload) (nowIso : String)
    (remote : List RemoteCollection) : List RemoteCollection :=
  if remote.any (fun rc => rc.id == p.id) then remote
  else
    remote ++ [{ id := p.id
                 name := p.name
                 description := some p.description
                 color := p.color
                 createdAt := some nowIso }]

/-- Server effect of `POST /pins` with a supplied id, as seen through the
client: create-if-absent (`PinsService.create`, supplied-id path). -/
def remoteCreatePin (p : ApiPinPayload) (nowIso : String)
    (remote : List RemotePin) : List RemotePin :=
  if remote.any (fun rp => rp.id == p.id) then remote
  else
    remote ++ [{ id := p.id
                 url := p.url
                 title := p.title
                 description := p.description
                 imageUrl := p.imageUrl
                 collectionId := some p.collectionId
                 createdAt := some nowIso }]

/-- The collection loop of `pushChanges`: skip collections whose id is in
the precomputed remote id set, otherwise map to the API shape
(`goal → description`, same id) and create; each create is wrapped in a
per-record try/catch, so a failure would not abort the siblings. -/
def pushCollectionsLoop (remoteIds : List String) (nowIso : String) :
    List Collection → List RemoteCollection → List ApiCall →
    List RemoteCollection × List ApiCall
  | [], remote, trace => (remote, trace)
  | c :: rest, remote, trace =>
    if remoteIds.contains c.id then
      pushCollectionsLoop remoteIds nowIso rest remote trace
    else
      let payload : ApiCollectionPayload :=
        { id := c.id, name := c.name, description := c.goal, color := c.color }
      let remote := remoteCreateCollection payload nowIso remote
      pushCollectionsLoop remoteIds nowIso rest remote
        (trace ++ [ApiCall.createCollection payload])

/-- The pin loop of `pushChanges`: skip pins whose id is in the
precomputed remote id set, then skip invalid pins
(`!pin.collectionId || !pin.page?.url`), otherwise map to the API shape
(same id) and create; per-record try/catch as for collections. -/
def pushPinsLoop (remoteIds : List String) (nowIso : String) :
    List Pin → List RemotePin → List ApiCall →
    List RemotePin × List ApiCall
  | [], remote, trace => (remote, trace)
  | p :: rest, remote, trace =>
    if remoteIds.contains p.id then
      pushPinsLoop remoteIds nowIso rest remote trace
    else if p.collectionId = "" ∨ p.page.url = "" then
      pushPinsLoop remoteIds nowIso rest remote trace
    else
      let payload : ApiPinPayload :=
        { id := p.id
          url := p.page.url
          title := jsOr p.page.title ""
          description := jsOrOO (p.summary.map (fun su => su.text)) p.note
          imageUrl := jsOrUndef p.page.ogImageUrl
          tags := []
          collectionId := p.collectionId }
      let remote := remoteCreatePin payload nowIso remote
      pushPinsLoop remoteIds nowIso rest remote
        (trace ++ [ApiCall.createPin payload])

/-- Embeds `SyncService.pushChanges`: read the local sets, list both remote
record kinds again, compute the remote id sets, then push the local-only
collections and the local-only pins. -/
def SyncService.pushChanges (s : SyncState) :
    Except String Unit × SyncState × List ApiCall :=
  let trace := [ApiCall.listPins, ApiCall.listCollections]
  match s.apiFail with
  | some msg => (.error msg, s, trace)
  | none =>
    let remoteCollectionIds := s.remoteCollections.map (fun c => c.id)
    let remotePinIds := s.remotePins.map (fun p => p.id)
    let (rcols, t1) :=
      pushCollectionsLoop remoteCollectionIds s.store.nowIso
        s.store.collections s.remoteCollections []
    let (rpins, t2) :=
      pushPinsLoop remotePinIds s.store.nowIso
        s.store.pins s.remotePins []
    (.ok (), { s with remoteCollections := rcols, remotePins := rpins },
      trace ++ t1 ++ t2)

/-! ## `SyncService.sync` -/

/-- The body of the `try` block of `sync()`: connectivity check, token
check, pull, then push. -/
def syncBody (s : SyncState) : Except String Unit × SyncState × List ApiCall :=
  if !s.online then
    (.error "No internet connection", s, [])
  else if !(jsTruthyO s.token) then
    (.error "Not authenticated - please sign in first", s, [])
  else
    let (r1, s1, t1) := SyncService.pullChanges s
    match r1 with
    | .error e => (.error e, s1, t1)
    | .ok _ =>
      let (r2, s2, t2) := SyncService.pushChanges s1
      (r2, s2, t1 ++ t2)

/-- The substring test of the `catch` block of `sync()` deciding whether
a failure is an authentication error. -/
def isAuthErrorMsg (msg : String) : Bool :=
  containsSubstr msg "Invalid or expired token" ||
    containsSubstr msg "Not authenticated"

/-- The `catch`/`finally` tail of `sync()`, applied to the outcome of the
`try` block: on success write the success status (current time, cleared
error, zero pending changes); on failure write the failure status
(suppressing authentication errors) and rethrow; on both paths clear the
`syncInProgress` flag. -/
def syncWrapup (r : Except String Unit × SyncState × List ApiCall) :
    Except String Unit × SyncState × List ApiCall :=
  match r with
  | (.ok _, s3, trace) =>
    let s4 := updateStatus s3
      { isSyncing := some false, lastSyncTime := some (some s3.nowMs)
        error := some none, pendingChanges := some 0 }
    (.ok (), { s4 with syncInProgress := false }, trace)
  | (.error msg, s3, trace) =>
    let s4 := updateStatus s3
      { isSyncing := some false, lastSyncTime := none
        error := some (if isAuthErrorMsg msg then none else some msg)
        pendingChanges := none }
    (.error msg, { s4 with syncInProgress := false }, trace)

/-- Embeds `SyncService.sync`: the disabled guard throws before anything else;
the in-progress guard returns without doing work; otherwise the flag is
set, status is marked syncing, the body runs, and the `catch`/`finally`
tail finishes the pass.  The second component is the final state, the
third the Remote Client calls made. -/
def SyncService.sync (s : SyncState) :
    Except String Unit × SyncState × List ApiCall :=
  if !s.settings.enabled then
    (.error "Sync is disabled", s, [])
  else if s.syncInProgress then
    (.ok (), s, [])
  else
    let s1 := { s with syncInProgress := true }
    let s2 := updateStatus s1
      { isSyncing := some true, lastSyncTime := none
        error := some none, pendingChanges := none }
    syncWrapup (syncBody s2)

/-- Embeds `SyncService.disable`: persist `enabled=false` (which already tears
the timer down inside `updateSettings`) and stop the timer again. -/
def SyncService.disable (s : SyncState) : SyncState :=
  stopAutoSync (updateSettings s
    { enabled := some false, autoSync := none
      syncInterval := none, wifiOnly := none })

/-- Embeds `SyncService.enable`: persist `enabled=true` and run one sync. -/
def SyncService.enable (s : SyncState) :
    Except String Unit × SyncState × List ApiCall :=
  SyncService.sync (updateSettings s
    { enabled := some true, autoSync := none
      syncInterval := none, wifiOnly := none })

/-! ## Backend data model (`apps/api`) -/

/-- A stored `Collection` row. -/
structure DbCollection where
  id : String
  name : String
  description : Option String
  color : Option String
  userId : String
  createdAt : Nat
deriving Repr, DecidableEq

/-- A stored `Pin` row. -/
structure DbPin where
  id : String
  url : String
  title : String
  description : Option String
  imageUrl : Option String
  favicon : Option String
  tags : List String
  collectionId : Option String
  userId : String
  createdAt : Nat
deriving Repr, DecidableEq

/-- The backend database: user ids plus the two record tables.  The ORM
and its schema are external collaborators, so a table is a plain list and
`create` is a plain append. -/
structure Db where
  users : List String
  collections : List DbCollection
  pins : List DbPin
deriving Repr, DecidableEq

/-- Embeds `prisma.user.upsert` with an empty update. -/
def upsertUser (userId : String) (db : Db) : Db :=
  if db.users.contains userId then db
  else { db with users := db.users ++ [userId] }

/-- Embeds `CreateCollectionDto`. -/
structure CreateCollectionDto where
  id : Option String
  name : String
  description : Option String
  color : Option String
deriving Repr, DecidableEq

/-- Embeds `CreatePinDto`. -/
structure CreatePinDto where
  id : Option String
  url : String
  title : String
  description : Option String
  imageUrl : Option String
  favicon : Option String
  tags : Option (List String)
  collectionId : Option String
deriving Repr, DecidableEq

/-- Embeds `CollectionsService.create`: upsert the user; with a (truthy) supplied
id, return the existing record if the id is taken, otherwise create a row
with exactly that id; without one, create with the ORM-generated id
(modelled by the `genId` argument). -/
def CollectionsService.create (userId : String) (dto : CreateCollectionDto)
    (genId : String) (now : Nat) (db : Db) : Db × DbCollection :=
  let db := upsertUser userId db
  if jsTruthyO dto.id then
    let i := dto.id.getD ""
    match db.collections.find? (fun c => c.id == i) with
    | some existing => (db, existing)
    | none =>
      let c : DbCollection :=
        { id := i, name := dto.name, description := dto.description
          color := dto.color, userId := userId, createdAt := now }
      ({ db with collections := db.collections ++ [c] }, c)
  else
    -- `{...createCollectionDto, userId}`: a present-but-falsy id (the
    -- empty string) is still spread into the row
    let c : DbCollection :=
      { id := match dto.id with | some s => s | none => genId
        name := dto.name, description := dto.description
        color := dto.color, userId := userId, createdAt := now }
    ({ db with collections := db.collections ++ [c] }, c)

/-- The collection-ownership guard of `PinsService.create`, executed only
when `collectionId` is truthy and no pin id was supplied. -/
def pinCollectionGuardFails (userId : String) (dto : CreatePinDto)
    (db : Db) : Bool :=
  jsTruthyO dto.collectionId && !(jsTruthyO dto.id) &&
    match db.collections.find? (fun c => c.id == dto.collectionId.getD "") with
    | none => true
    | some c => c.userId != userId

/-- Embeds `PinsService.create`: upsert the user; verify collection ownership
(skipped when an id is supplied); with a (truthy) supplied id, return the
existing record if the id is taken, otherwise create a row with exactly
that id — with no duplicate-URL check; without an id, reject a duplicate
`(userId, url)` with a `ConflictException`, otherwise create with the
ORM-generated id. -/
def PinsService.create (userId : String) (dto : CreatePinDto)
    (genId : String) (now : Nat) (db : Db) : Except String (Db × DbPin) :=
  let db := upsertUser userId db
  if pinCollectionGuardFails userId dto db then
    .error "Invalid collection"
  else if jsTruthyO dto.id then
    let i := dto.id.getD ""
    match db.pins.find? (fun p => p.id == i) with
    | some existing => .ok (db, existing)
    | none =>
      let p : DbPin :=
        { id := i, url := dto.url, title := dto.title
          description := dto.description, imageUrl := dto.imageUrl
          favicon := dto.favicon, tags := dto.tags.getD []
          collectionId := dto.collectionId, userId := userId, createdAt := now }
      .ok ({ db with pins := db.pins ++ [p] }, p)
  else
    match db.pins.find? (fun p => p.userId == userId && p.url == dto.url) with
    | some _ => .error "You have already saved this URL"
    | none =>
      let p : DbPin :=
        { id := match dto.id with | some s => s | none => genId
          url := dto.url, title := dto.title
          description := dto.description, imageUrl := dto.imageUrl
          favicon := dto.favicon, tags := dto.tags.getD []
          collectionId := dto.collectionId, userId := userId, createdAt := now }
      .ok ({ db with pins := db.pins ++ [p] }, p)

/-! ## `PinsService.findAll` and the client unwrap -/

/-- Insert into a list kept sorted by `createdAt` descending. -/
def insertByCreatedAtDesc (p : DbPin) : List DbPin → List DbPin
  | [] => [p]
  | q :: rest =>
    if p.createdAt ≥ q.createdAt then p :: q :: rest
    else q :: insertByCreatedAtDesc p rest

/-- Embeds `orderBy createdAt desc`, modelled by insertion sort. -/
def sortByCreatedAtDesc : List DbPin → List DbPin
  | [] => []
  | p :: rest => insertByCreatedAtDesc p (sortByCreatedAtDesc rest)

/-- Embeds the `findAll` options (the controller always passes `page` and `limit`). -/
structure FindAllOptions where
  collectionId : Option String
  search : Option String
  page : Option Nat
  limit : Option Nat
deriving Repr, DecidableEq

/-- The pagination metadata of the `findAll` response. -/
structure PageMeta where
  total : Nat
  page : Nat
  limit : Nat
  totalPages : Nat
deriving Repr, DecidableEq

/-- The `findAll` response body: `{ data, meta }`. -/
structure FindAllResult where
  data : List DbPin
  meta : PageMeta
deriving Repr, DecidableEq

/-- The `where` clause of `findAll`: owner filter, optional (truthy)
collection filter, optional (truthy) case-insensitive search over title,
description and url. -/
def findAllWhere (userId : String) (opts : FindAllOptions) (p : DbPin) : Bool :=
  p.userId == userId &&
    (if jsTruthyO opts.collectionId
     then p.collectionId == some (opts.collectionId.getD "") else true) &&
    (match opts.search with
     | some srch =>
       if srch = "" then true
       else
         containsSubstr p.title.toLower srch.toLower ||
           (match p.description with
            | some d => containsSubstr d.toLower srch.toLower
            | none => false) ||
           containsSubstr p.url.toLower srch.toLower
     | none => true)

/-- Embeds `PinsService.findAll`: filter, count, sort by `createdAt` descending,
then return one page of at most `limit` records (`skip`/`take`). -/
def PinsService.findAll (userId : String) (opts : FindAllOptions)
    (db : Db) : FindAllResult :=
  let page := opts.page.getD 1
  let limit := opts.limit.getD 12
  let skip := (page - 1) * limit
  let base := db.pins.filter (findAllWhere userId opts)
  let total := base.length
  { data := ((sortByCreatedAtDesc base).drop skip).take limit
    meta :=
      { total := total, page := page, limit := limit
        totalPages := (total + limit - 1) / limit } }

/-- Embeds `GET /pins` as the extension's `api.pins.list()` reaches it: the
controller defaults `page` to 1 and `limit` to 12 when the query has
neither. -/
def listPinsEndpoint (userId : String) (db : Db) : FindAllResult :=
  PinsService.findAll userId
    { collectionId := none, search := none, page := some 1, limit := some 12 } db

/-- The unwrap in the API client's `request`: `(data.data || data)`.
The `findAll` body always has a `data` field holding an array, and a JS
array (even an empty one) is truthy, so the client returns only the first
page of records and drops `meta`. -/
def requestUnwrapPins (r : FindAllResult) : List DbPin := r.data

/-! ## Concrete states used to evaluate the definitions -/

/-- An empty local store. -/
def initStore : LocalStore :=
  { collections := [], pins := [], nextId := 0, nowIso := "2026-01-01T00:00:00.000Z" }

/-- A healthy sync state: enabled, online, token cached, both sides empty. -/
def baseState : SyncState :=
  { settings := { enabled := true, autoSync := false, syncInterval := 5, wifiOnly := false }
    status := { isSyncing := false, lastSyncTime := none, error := none, pendingChanges := 0 }
    syncInProgress := false
    syncTimer := none
    online := true
    token := some "tok"
    store := initStore
    remoteCollections := []
    remotePins := []
    apiFail := none
    nowMs := 1000 }

/-- One remote collection with id `c1`, unknown locally. -/
def remoteOnlyCollection : RemoteCollection :=
  { id := "c1", name := "N", description := none, color := none, createdAt := none }

/-- State with one remote-only collection, for the pull-id claim. -/
def pullIdState : SyncState :=
  { baseState with remoteCollections := [remoteOnlyCollection] }

/-- Same situation, fixture of the pull-before-push claim. -/
def pullPushState : SyncState :=
  { baseState with remoteCollections := [remoteOnlyCollection] }

/-- Same situation, fixture of the idempotent-push claim. -/
def idemPushState : SyncState :=
  { baseState with remoteCollections := [remoteOnlyCollection] }

/-- A valid local pin (non-empty `collectionId` and `page.url`). -/
def validLocalPin : Pin :=
  { id := "p1", userId := none, collectionId := "c"
    page := { url := "u", title := none, ogImageUrl := none, siteName := none }
    summary := none, note := none, createdAt := "T" }

/-- State with one valid local-only pin. -/
def validPinState : SyncState :=
  { baseState with store := { initStore with pins := [validLocalPin] } }

/-- The payload `pushChanges` sends for `validLocalPin`. -/
def validPinPayload : ApiPinPayload :=
  { id := "p1", url := "u", title := "", description := none
    imageUrl := none, tags := [], collectionId := "c" }

/-- State with sync disabled. -/
def disabledState : SyncState :=
  { baseState with settings := { baseState.settings with enabled := false } }

/-- State with a pass already in flight. -/
def inFlightState : SyncState :=
  { baseState with syncInProgress := true }

/-- State with sync disabled and a stale persisted status. -/
def disabledStaleState : SyncState :=
  { baseState with
      settings := { baseState.settings with enabled := false }
      status := { isSyncing := true, lastSyncTime := none
                  error := some "old failure", pendingChanges := 0 } }

/-- State that is offline (connectivity check fails). -/
def offlineState : SyncState :=
  { baseState with online := false }

/-- A backend pin row used as the pre-existing record of the
`(ownerId, url)` conflict scenarios. -/
def conflictDbPin : DbPin :=
  { id := "pOld", url := "u", title := "t", description := none
    imageUrl := none, favicon := none, tags := [], collectionId := none
    userId := "u1", createdAt := 0 }

/-- A backend database holding that one pin for user `u1`. -/
def conflictDb : Db :=
  { users := ["u1"], collections := [], pins := [conflictDbPin] }

/-- A create-pin request that supplies an id and reuses the url `u`. -/
def suppliedIdDto : CreatePinDto :=
  { id := some "pNew", url := "u", title := "t2", description := none
    imageUrl := none, favicon := none, tags := none, collectionId := none }

/-- The same request without an id (auto-generated-id path). -/
def autoIdDto : CreatePinDto :=
  { id := none, url := "u", title := "t2", description := none
    imageUrl := none, favicon := none, tags := none, collectionId := none }

/-- A create-collection request supplying a fresh id. -/
def freshColDto : CreateCollectionDto :=
  { id := some "cNew", name := "C", description := none, color := none }

/-- The i-th backend pin of user `u` for the pagination fixture. -/
def mkDbPin (i : Nat) : DbPin :=
  { id := "p" ++ toString i, url := "u" ++ toString i, title := ""
    description := none, imageUrl := none, favicon := none, tags := []
    collectionId := none, userId := "u", createdAt := i }

/-- A backend database with 13 pins owned by user `u`. -/
def thirteenPinDb : Db :=
  { users := ["u"], collections := [], pins := (List.range 13).map mkDbPin }

/-! ## Theorems -/

/-- C1: the claim says every record pulled during a sync pass is inserted
into the Local Store with the same id as the remote record.  The code
refutes it: `addCollection` (and `addPin`) overwrite the id passed by
`pullChanges` with a freshly generated one, so pulling the remote
collection `c1` into an empty local store inserts a record whose id is
the generated `col_0`, not `c1`. -/
theorem pulled_record_id_is_regenerated :
    (SyncService.pullChanges pullIdState).2.1.store.collections.map
        (fun c => c.id) = ["col_0"] ∧
      remoteOnlyCollection.id = "c1" ∧ ("col_0" : String) ≠ "c1" := by
  refine ⟨rfl, rfl, ?_⟩
  decide

/-- C2: the claim says that with one remote-only record and no local-only
records, a successful `sync()` makes no create call.  The code refutes
it: the pulled copy is stored under a regenerated id, so the push phase
does not find that id in the remote id set and pushes the copy back with
`createCollection`. -/
theorem pulled_record_is_pushed_back :
    (SyncService.sync pullPushState).1 = Except.ok () ∧
      createCalls (SyncService.sync pullPushState).2.2 =
        [ApiCall.createCollection
          { id := "col_0", name := "N", description := ""
            color := some "#6366f1" }] ∧
      (SyncService.sync pullPushState).2.1.store.collections.map
        (fun c => c.id) = ["col_0"] :=
  ⟨rfl, rfl, rfl⟩

/-- C3: the claim says running `sync()` twice over stores whose local
records are all already present remotely creates no duplicate remote
records.  The code refutes it: starting from an empty local store and
one remote collection (so the local-present-remotely hypothesis holds
vacuously), each pass pulls the remote record under a fresh local id and
pushes that copy back, so after two passes the remote store holds three
records with the same name. -/
theorem sync_twice_creates_remote_duplicates :
    (SyncService.sync (SyncService.sync idemPushState).2.1).2.1.remoteCollections.map
        (fun c => c.id) = ["c1", "col_0", "col_1"] ∧
      (SyncService.sync (SyncService.sync idemPushState).2.1).2.1.remoteCollections.map
        (fun c => c.name) = ["N", "N", "N"] :=
  ⟨rfl, rfl⟩

/-- C5: with `enabled=false`, `sync()` fails with the sync-disabled error
before making any Remote Client call (empty call trace, state untouched),
and `disable()` persists `enabled=false` and cancels the auto-sync
timer. -/
theorem disabled_guard_and_disable (s : SyncState) :
    (s.settings.enabled = false →
      SyncService.sync s = (Except.error "Sync is disabled", s, [])) ∧
      (SyncService.disable s).settings.enabled = false ∧
      (SyncService.disable s).syncTimer = none := by
  refine ⟨fun h => ?_, rfl, rfl⟩
  simp [SyncService.sync, h]

/-- Witness for the disabled guard at a concrete state. -/
theorem disabled_guard_witness :
    SyncService.sync disabledState =
        (Except.error "Sync is disabled", disabledState, []) ∧
      (SyncService.disable disabledState).settings.enabled = false ∧
      (SyncService.disable disabledState).syncTimer = none :=
  ⟨(disabled_guard_and_disable disabledState).1 rfl,
    (disabled_guard_and_disable disabledState).2.1,
    (disabled_guard_and_disable disabledState).2.2⟩

/-- The wrapup always hands back a state with the flag cleared. -/
theorem syncWrapup_clears_flag (r : Except String Unit × SyncState × List ApiCall) :
    (syncWrapup r).2.1.syncInProgress = false := by
  obtain ⟨res, s3, tr⟩ := r
  cases res <;> rfl

/-- The wrapup passes the body's call trace through unchanged. -/
theorem syncWrapup_trace (r : Except String Unit × SyncState × List ApiCall) :
    (syncWrapup r).2.2 = r.2.2 := by
  obtain ⟨res, s3, tr⟩ := r
  cases res <;> rfl

/-- C6: at most one pass is in flight.  A `sync()` invoked while the
`syncInProgress` flag is set (and the disabled guard passed) returns
immediately with no Remote Client call and no state change; and a pass
that does enter always hands back the flag cleared, on the success and
on the error path alike. -/
theorem sync_mutual_exclusion (s : SyncState) :
    (s.settings.enabled = true → s.syncInProgress = true →
      SyncService.sync s = (Except.ok (), s, [])) ∧
      (s.syncInProgress = false →
        (SyncService.sync s).2.1.syncInProgress = false) := by
  constructor
  · intro he hp
    simp [SyncService.sync, he, hp]
  · intro hp
    unfold SyncService.sync
    by_cases he : s.settings.enabled
    · simp only [he, Bool.not_true, Bool.false_eq_true, if_false, hp, if_neg]
      exact syncWrapup_clears_flag _
    · simp only [Bool.not_eq_true] at he
      simp [he, hp]

/-- Witness for the mutual-exclusion theorem at concrete states. -/
theorem sync_mutual_exclusion_witness :
    SyncService.sync inFlightState = (Except.ok (), inFlightState, []) ∧
      (SyncService.sync baseState).2.1.syncInProgress = false :=
  ⟨(sync_mutual_exclusion inFlightState).1 rfl rfl,
    (sync_mutual_exclusion baseState).2 rfl⟩

/-- C7: from the initial status, with both stores empty, sync enabled,
the device online and a token cached, a successful `sync()` performs
zero create calls and persists exactly
`{isSyncing := false, lastSyncTime := completion time, error := none,
pendingChanges := 0}`. -/
theorem empty_stores_success (s : SyncState)
    (hen : s.settings.enabled = true) (hip : s.syncInProgress = false)
    (hon : s.online = true) (htok : jsTruthyO s.token = true)
    (hfail : s.apiFail = none)
    (hlc : s.store.collections = []) (hlp : s.store.pins = [])
    (hrc : s.remoteCollections = []) (hrp : s.remotePins = [])
    (hst : s.status.isSyncing = false) (hlt : s.status.lastSyncTime = none)
    (herr : s.status.error = none) :
    (SyncService.sync s).1 = Except.ok () ∧
      createCalls (SyncService.sync s).2.2 = [] ∧
      (SyncService.sync s).2.1.status =
        { isSyncing := false, lastSyncTime := some s.nowMs
          error := none, pendingChanges := 0 } := by
  simp [SyncService.sync, hen, hip, syncBody, hon, htok,
    SyncService.pullChanges, SyncService.pushChanges, hfail, hlc, hlp, hrc, hrp,
    pullCollectionsLoop, pullPinsLoop, pushCollectionsLoop, pushPinsLoop,
    createCalls, updateStatus, applyStatusPatch, syncWrapup]

/-- Witness for the empty-store scenario at the concrete base state. -/
theorem empty_stores_success_witness :
    (SyncService.sync baseState).1 = Except.ok () ∧
      createCalls (SyncService.sync baseState).2.2 = [] ∧
      (SyncService.sync baseState).2.1.status =
        { isSyncing := false, lastSyncTime := some baseState.nowMs
          error := none, pendingChanges := 0 } :=
  empty_stores_success baseState rfl rfl rfl (by decide) rfl rfl rfl rfl rfl
    rfl rfl rfl

/-- C8, counterexample: the claim quantifies over every `sync()` pass that
fails with a thrown error, but the disabled guard throws outside the
`try`/`catch`, so that failure updates no status at all: from a stale
status the pass fails with a non-auth error, yet the persisted `error`
keeps its old value (not the failure message) and `isSyncing` keeps its
stale `true`. -/
theorem failure_status_not_updated_when_disabled :
    (SyncService.sync disabledStaleState).1 = Except.error "Sync is disabled" ∧
      isAuthErrorMsg "Sync is disabled" = false ∧
      (SyncService.sync disabledStaleState).2.1.status.error =
        some "old failure" ∧
      (SyncService.sync disabledStaleState).2.1.status.isSyncing = true := by
  refine ⟨rfl, by decide, rfl, rfl⟩

/-- C8 as amended: for every `sync()` pass that passes the disabled and
in-progress guards and then fails with a thrown error, the persisted
status ends with `isSyncing=false` and `error` equal to the failure
message, except that an authentication failure (missing or expired
token) is suppressed to `null`; the error itself propagates (it is the
returned `Except.error`). -/
theorem failure_status_update (s : SyncState) (msg : String)
    (hen : s.settings.enabled = true) (hip : s.syncInProgress = false)
    (h : (SyncService.sync s).1 = Except.error msg) :
    (SyncService.sync s).2.1.status.isSyncing = false ∧
      (SyncService.sync s).2.1.status.error =
        (if isAuthErrorMsg msg then none else some msg) := by
  unfold SyncService.sync at h ⊢
  simp only [hen, Bool.not_true, Bool.false_eq_true, if_false, hip] at h ⊢
  rcases hsb : syncBody (updateStatus { s with syncInProgress := true }
      { isSyncing := some true, lastSyncTime := none
        error := some none, pendingChanges := none }) with ⟨res, s3, tr⟩
  rw [hsb] at h
  cases res with
  | ok u => simp [syncWrapup] at h
  | error m =>
    simp only [syncWrapup, Except.error.injEq] at h
    subst h
    exact ⟨rfl, rfl⟩

/-- Witness for the amended failure-status theorem: an offline pass fails
with the connectivity message, which is not an auth error, and the status
surfaces it. -/
theorem failure_status_update_witness :
    (SyncService.sync offlineState).2.1.status.isSyncing = false ∧
      (SyncService.sync offlineState).2.1.status.error =
        (if isAuthErrorMsg "No internet connection" then none
         else some "No internet connection") :=
  failure_status_update offlineState "No internet connection" rfl rfl rfl

/-- Any `createPin` call emitted by the pin push loop was already in the
accumulated trace or carries a non-empty `collectionId` and `url`. -/
theorem pushPinsLoop_createPin_valid (remoteIds : List String) (nowIso : String)
    (pins : List Pin) (remote : List RemotePin) (trace : List ApiCall)
    (p : ApiPinPayload)
    (h : ApiCall.createPin p ∈ (pushPinsLoop remoteIds nowIso pins remote trace).2) :
    ApiCall.createPin p ∈ trace ∨ (p.collectionId ≠ "" ∧ p.url ≠ "") := by
  induction pins generalizing remote trace with
  | nil =>
    simp only [pushPinsLoop] at h
    exact .inl h
  | cons q rest ih =>
    unfold pushPinsLoop at h
    by_cases h1 : remoteIds.contains q.id
    · rw [if_pos h1] at h
      exact ih _ _ h
    · rw [if_neg h1] at h
      by_cases h2 : q.collectionId = "" ∨ q.page.url = ""
      · rw [if_pos h2] at h
        exact ih _ _ h
      · rw [if_neg h2] at h
        push_neg at h2
        rcases ih _ _ h with hin | hval
        · rcases List.mem_append.mp hin with hml | hmr
          · exact .inl hml
          · simp only [List.mem_singleton, ApiCall.createPin.injEq] at hmr
            subst hmr
            exact .inr ⟨h2.1, h2.2⟩
        · exact .inr hval

/-- The collection push loop emits no `createPin` call. -/
theorem pushCollectionsLoop_no_createPin (remoteIds : List String)
    (nowIso : String) (cols : List Collection) (remote : List RemoteCollection)
    (trace : List ApiCall) (p : ApiPinPayload)
    (h : ApiCall.createPin p ∈
      (pushCollectionsLoop remoteIds nowIso cols remote trace).2) :
    ApiCall.createPin p ∈ trace := by
  induction cols generalizing remote trace with
  | nil =>
    simpa only [pushCollectionsLoop] using h
  | cons q rest ih =>
    unfold pushCollectionsLoop at h
    by_cases h1 : remoteIds.contains q.id
    · rw [if_pos h1] at h
      exact ih _ _ h
    · rw [if_neg h1] at h
      have hm := ih _ _ h
      rcases List.mem_append.mp hm with hml | hmr
      · exact hml
      · simp at hmr

/-- Any `createPin` call made by `pushChanges` is for a valid pin. -/
theorem pushChanges_createPin_valid (s : SyncState) (p : ApiPinPayload)
    (h : ApiCall.createPin p ∈ (SyncService.pushChanges s).2.2) :
    p.collectionId ≠ "" ∧ p.url ≠ "" := by
  unfold SyncService.pushChanges at h
  rcases hf : s.apiFail with _ | msg
  · rw [hf] at h
    rcases List.mem_append.mp h with h01 | h2
    · rcases List.mem_append.mp h01 with h0 | h1
      · simp at h0
      · exact absurd (pushCollectionsLoop_no_createPin _ _ _ _ _ _ h1) (by simp)
    · rcases pushPinsLoop_createPin_valid _ _ _ _ _ _ h2 with hin | hval
      · simp at hin
      · exact hval
  · rw [hf] at h
    simp at h

/-- The pull phase `pullChanges` only issues the two list calls. -/
theorem pullChanges_trace (s : SyncState) :
    (SyncService.pullChanges s).2.2 =
      [ApiCall.listPins, ApiCall.listCollections] := by
  unfold SyncService.pullChanges
  rcases hf : s.apiFail with _ | msg
  · rfl
  · rfl

/-- Any `createPin` call made inside the `try` body is for a valid pin. -/
theorem syncBody_createPin_valid (s : SyncState) (p : ApiPinPayload)
    (h : ApiCall.createPin p ∈ (syncBody s).2.2) :
    p.collectionId ≠ "" ∧ p.url ≠ "" := by
  unfold syncBody at h
  by_cases hon : s.online
  · simp only [hon, Bool.not_true, Bool.false_eq_true, if_false] at h
    by_cases htok : jsTruthyO s.token
    · simp only [htok, Bool.not_true, Bool.false_eq_true, if_false] at h
      rcases hpull : SyncService.pullChanges s with ⟨r1, s1, t1⟩
      have ht1 : t1 = [ApiCall.listPins, ApiCall.listCollections] := by
        have hx := pullChanges_trace s
        rw [hpull] at hx
        exact hx
      rw [hpull] at h
      cases r1 with
      | error e =>
        rw [ht1] at h
        simp at h
      | ok u =>
        rcases hpush : SyncService.pushChanges s1 with ⟨r2, s2, t2⟩
        rw [hpush] at h
        rcases List.mem_append.mp h with hm1 | hm2
        · rw [ht1] at hm1
          simp at hm1
        · refine pushChanges_createPin_valid s1 p ?_
          rw [hpush]
          exact hm2
    · simp only [Bool.not_eq_true] at htok
      simp [htok] at h
  · simp only [Bool.not_eq_true] at hon
    simp [hon] at h

/-- C4: in every sync pass, every `createPin` call the push phase issues
carries a non-empty `collectionId` and a non-empty `page.url` — and the
payload copies those two fields verbatim from the local pin, so a local
pin with an empty or missing `collectionId` or `page.url` is never
transmitted. -/
theorem sync_createPin_valid (s : SyncState) (p : ApiPinPayload)
    (h : ApiCall.createPin p ∈ (SyncService.sync s).2.2) :
    p.collectionId ≠ "" ∧ p.url ≠ "" := by
  unfold SyncService.sync at h
  by_cases he : s.settings.enabled
  · simp only [he, Bool.not_true, Bool.false_eq_true, if_false] at h
    by_cases hp : s.syncInProgress
    · rw [if_pos hp] at h
      simp at h
    · rw [if_neg hp] at h
      rw [syncWrapup_trace] at h
      exact syncBody_createPin_valid _ p h
  · simp only [Bool.not_eq_true] at he
    simp [he] at h

/-- Witness: the pass over `validPinState` does issue a `createPin` call,
and the theorem applies to its payload. -/
theorem sync_createPin_valid_witness :
    validPinPayload.collectionId ≠ "" ∧ validPinPayload.url ≠ "" :=
  sync_createPin_valid validPinState validPinPayload (by decide)

/-- The user upsert leaves the collections table unchanged. -/
theorem upsertUser_collections (uid : String) (db : Db) :
    (upsertUser uid db).collections = db.collections := by
  unfold upsertUser
  split <;> rfl

/-- The user upsert leaves the pins table unchanged. -/
theorem upsertUser_pins (uid : String) (db : Db) :
    (upsertUser uid db).pins = db.pins := by
  unfold upsertUser
  split <;> rfl

/-- The collection-ownership guard only reads the collections table,
so the user upsert does not affect it. -/
theorem pinCollectionGuardFails_upsert (uid : String) (dto : CreatePinDto)
    (u2 : String) (db : Db) :
    pinCollectionGuardFails uid dto (upsertUser u2 db) =
      pinCollectionGuardFails uid dto db := by
  unfold pinCollectionGuardFails
  rw [upsertUser_collections]

/-- C9: server-side creation with a supplied id is idempotent.  In order:
creating a collection whose id exists returns the existing row and adds
nothing; creating one whose id is free appends a row with exactly that
id; the same two facts for pins; and the `(ownerId, url)` uniqueness
conflict is raised only on the auto-generated-id path (the pin conjuncts
with a supplied id carry no hypothesis about urls, and the conflict
conjunct requires `jsTruthyO dto.id = false`). -/
theorem create_with_id_idempotent :
    (∀ (db : Db) (uid : String) (dto : CreateCollectionDto) (genId : String)
        (now : Nat) (ex : DbCollection),
      jsTruthyO dto.id = true →
      db.collections.find? (fun c => c.id == dto.id.getD "") = some ex →
      (CollectionsService.create uid dto genId now db).1.collections
          = db.collections ∧
        (CollectionsService.create uid dto genId now db).2 = ex) ∧
    (∀ (db : Db) (uid : String) (dto : CreateCollectionDto) (genId : String)
        (now : Nat),
      jsTruthyO dto.id = true →
      db.collections.find? (fun c => c.id == dto.id.getD "") = none →
      (CollectionsService.create uid dto genId now db).1.collections
          = db.collections ++ [(CollectionsService.create uid dto genId now db).2] ∧
        (CollectionsService.create uid dto genId now db).2.id = dto.id.getD "") ∧
    (∀ (db : Db) (uid : String) (dto : CreatePinDto) (genId : String)
        (now : Nat) (ex : DbPin),
      jsTruthyO dto.id = true →
      db.pins.find? (fun p => p.id == dto.id.getD "") = some ex →
      ∃ db2, PinsService.create uid dto genId now db = Except.ok (db2, ex) ∧
        db2.pins = db.pins) ∧
    (∀ (db : Db) (uid : String) (dto : CreatePinDto) (genId : String)
        (now : Nat),
      jsTruthyO dto.id = true →
      db.pins.find? (fun p => p.id == dto.id.getD "") = none →
      ∃ db2 p, PinsService.create uid dto genId now db = Except.ok (db2, p) ∧
        p.id = dto.id.getD "" ∧ db2.pins = db.pins ++ [p]) ∧
    (∀ (db : Db) (uid : String) (dto : CreatePinDto) (genId : String)
        (now : Nat) (q : DbPin),
      jsTruthyO dto.id = false →
      pinCollectionGuardFails uid dto db = false →
      db.pins.find? (fun p => p.userId == uid && p.url == dto.url) = some q →
      PinsService.create uid dto genId now db =
        Except.error "You have already saved this URL") := by
  refine ⟨?_, ?_, ?_, ?_, ?_⟩
  · intro db uid dto genId now ex hid hfind
    simp [CollectionsService.create, hid, upsertUser_collections, hfind]
  · intro db uid dto genId now hid hfind
    simp [CollectionsService.create, hid, upsertUser_collections, hfind]
  · intro db uid dto genId now ex hid hfind
    refine ⟨upsertUser uid db, ?_, upsertUser_pins uid db⟩
    simp [PinsService.create, hid, pinCollectionGuardFails, upsertUser_pins, hfind]
  · intro db uid dto genId now hid hfind
    refine ⟨{ upsertUser uid db with
        pins := (upsertUser uid db).pins ++
          [{ id := dto.id.getD "", url := dto.url, title := dto.title
             description := dto.description, imageUrl := dto.imageUrl
             favicon := dto.favicon, tags := dto.tags.getD []
             collectionId := dto.collectionId, userId := uid, createdAt := now }] },
      { id := dto.id.getD "", url := dto.url, title := dto.title
        description := dto.description, imageUrl := dto.imageUrl
        favicon := dto.favicon, tags := dto.tags.getD []
        collectionId := dto.collectionId, userId := uid, createdAt := now },
      ?_, rfl, ?_⟩
    · simp [PinsService.create, hid, pinCollectionGuardFails, upsertUser_pins, hfind]
    · simp [upsertUser_pins]
  · intro db uid dto genId now q hid hguard hfind
    simp [PinsService.create, hid, pinCollectionGuardFails_upsert, hguard,
      upsertUser_pins, hfind]

/-- Witness: over a database holding one pin `(u1, u)`, a fresh-id
collection create appends with that id; a supplied-id pin create with the
conflicting url `u` still succeeds; the auto-id create with url `u` is
rejected with the conflict error. -/
theorem create_with_id_idempotent_witness :
    ((CollectionsService.create "u1" freshColDto "g" 5 conflictDb).1.collections
        = conflictDb.collections ++
          [(CollectionsService.create "u1" freshColDto "g" 5 conflictDb).2] ∧
      (CollectionsService.create "u1" freshColDto "g" 5 conflictDb).2.id
        = freshColDto.id.getD "") ∧
    (∃ db2 p, PinsService.create "u1" suppliedIdDto "g" 5 conflictDb
        = Except.ok (db2, p) ∧ p.id = suppliedIdDto.id.getD "" ∧
        db2.pins = conflictDb.pins ++ [p]) ∧
    PinsService.create "u1" autoIdDto "g" 5 conflictDb
      = Except.error "You have already saved this URL" :=
  ⟨create_with_id_idempotent.2.1 conflictDb "u1" freshColDto "g" 5
      (by decide) (by decide),
    create_with_id_idempotent.2.2.2.1 conflictDb "u1" suppliedIdDto "g" 5
      (by decide) (by decide),
    create_with_id_idempotent.2.2.2.2 conflictDb "u1" autoIdDto "g" 5
      conflictDbPin (by decide) (by decide) (by decide)⟩

/-- C10: the pin listing the sync engine reads is paginated.  The
endpoint reached by `api.pins.list()` returns at most the 12 records of
the first page (the controller defaults), the client unwrap keeps only
`data`, and therefore whenever a user owns more than 12 pins (with
distinct ids) some owned pin id is absent from the listing that the push
phase uses as its remote id set. -/
theorem remote_pin_listing_is_one_page (db : Db) (uid : String) :
    (requestUnwrapPins (listPinsEndpoint uid db)).length ≤ 12 ∧
      ((db.pins.filter (fun p => p.userId == uid)).length > 12 →
        ((db.pins.filter (fun p => p.userId == uid)).map (fun p => p.id)).Nodup →
        ∃ p ∈ db.pins.filter (fun p => p.userId == uid),
          p.id ∉ (requestUnwrapPins (listPinsEndpoint uid db)).map
            (fun q => q.id)) := by
  have hlen12 : (requestUnwrapPins (listPinsEndpoint uid db)).length ≤ 12 := by
    have : requestUnwrapPins (listPinsEndpoint uid db)
        = (sortByCreatedAtDesc (db.pins.filter
            (findAllWhere uid
              { collectionId := none, search := none
                page := some 1, limit := some 12 }))).take 12 := rfl
    rw [this, List.length_take]
    exact min_le_left _ _
  refine ⟨hlen12, fun hlen hnodup => ?_⟩
  by_contra hcon
  push_neg at hcon
  set F := db.pins.filter (fun p => p.userId == uid) with hFdef
  set vis := requestUnwrapPins (listPinsEndpoint uid db) with hvis
  have hsub : F.map (fun p => p.id) ⊆ vis.map (fun q => q.id) := by
    intro x hx
    obtain ⟨p, hp, hpx⟩ := List.mem_map.mp hx
    subst hpx
    exact hcon p hp
  have hfin : (F.map (fun p => p.id)).toFinset ⊆
      (vis.map (fun q => q.id)).toFinset := by
    intro x hx
    exact List.mem_toFinset.mpr (hsub (List.mem_toFinset.mp hx))
  have h1 : (F.map (fun p => p.id)).toFinset.card
      = (F.map (fun p => p.id)).length := List.toFinset_card_of_nodup hnodup
  have h2 : (vis.map (fun q => q.id)).toFinset.card
      ≤ (vis.map (fun q => q.id)).length := List.toFinset_card_le _
  have h3 := Finset.card_le_card hfin
  rw [List.length_map] at h1
  rw [List.length_map] at h2
  omega

/-- Witness: with 13 pins owned by `u`, the unwrapped listing has at
most 12 entries and misses at least one owned pin id. -/
theorem remote_pin_listing_is_one_page_witness :
    (requestUnwrapPins (listPinsEndpoint "u" thirteenPinDb)).length ≤ 12 ∧
      ∃ p ∈ thirteenPinDb.pins.filter (fun p => p.userId == "u"),
        p.id ∉ (requestUnwrapPins (listPinsEndpoint "u" thirteenPinDb)).map
          (fun q => q.id) :=
  ⟨(remote_pin_listing_is_one_page thirteenPinDb "u").1,
    (remote_pin_listing_is_one_page thirteenPinDb "u").2 (by decide) (by decide)⟩
